import Mathlib

/-!
Shallow embedding of the self-play training control loop in
`src/alpha_zero_general/Coach.py` (`executeEpisode` and class `Coach`),
together with theorems checking the specification's claims about it.

Conventions:
* Python machine floats used for the arena win ratio are modelled by `ℚ`
  (the comparisons the spec exercises are exact).
* The external `Game` and `MCTS` collaborators (not part of this file's
  source) are abstracted as structures of functions; `np.random.choice`
  is abstracted as a sampling function `A → ℕ`.
* Players are `ℤ` values (`+1` / `-1`), as in the source.
-/

/-! ## Arena accept/reject decision (Coach.learn, lines 192-207) -/

/-- Transcription of the rejection test in `Coach.learn`:
`if pwins + nwins > 0 and float(nwins) / (pwins + nwins) < self.model_win_loss_ratio`.
`pwins` are incumbent (previous-network) wins, `nwins` challenger (new-network)
wins; the threshold is `model_win_loss_ratio`. -/
def arenaRejects (pwins nwins : ℕ) (threshold : ℚ) : Bool :=
  decide (0 < pwins + nwins) &&
    decide ((nwins : ℚ) / ((pwins : ℚ) + (nwins : ℚ)) < threshold)

/-- The `else` branch of the same test: the challenger is accepted
(checkpointed as "best") exactly when the rejection test is false. -/
def arenaAccepts (pwins nwins : ℕ) (threshold : ℚ) : Bool :=
  ! arenaRejects pwins nwins threshold

/-- C1: with a zero denominator (`pwins = nwins = 0`, an all-draws arena,
e.g. 30 draws at threshold 3/5) the guard `pwins + nwins > 0` makes the
rejection condition false, so `Coach.learn` takes the ACCEPT branch: the
challenger becomes the new incumbent.  This contradicts the claim (and the
method's own docstring), which require rejection in the all-draws case. -/
theorem arena_all_draws_accepts : arenaAccepts 0 0 (3 / 5 : ℚ) = true := by
  decide

/-- C3: whenever the denominator is positive, the challenger is accepted iff
`nwins / (pwins + nwins) >= threshold`; the boundary (ratio exactly equal to
the threshold) is an acceptance. -/
theorem arena_accepts_iff_ratio_ge (pwins nwins : ℕ) (threshold : ℚ)
    (h : 0 < pwins + nwins) :
    arenaAccepts pwins nwins threshold = true ↔
      threshold ≤ (nwins : ℚ) / ((pwins : ℚ) + (nwins : ℚ)) := by
  simp only [arenaAccepts, arenaRejects, Bool.not_eq_true', Bool.and_eq_false_iff,
    decide_eq_false_iff_not, not_lt]
  constructor
  · rintro (hc | hc)
    · exact absurd h (by omega)
    · exact hc
  · exact fun hc => Or.inr hc

/-- Witness for C3 at the boundary instance from the spec:
18 challenger wins, 12 incumbent wins, threshold 3/5 = 0.6; the ratio is
exactly 0.6 and the challenger is accepted. -/
theorem arena_accepts_iff_ratio_ge_witness :
    arenaAccepts 12 18 (3 / 5 : ℚ) = true :=
  (arena_accepts_iff_ratio_ge 12 18 (3 / 5 : ℚ) (by decide)).mpr (by norm_num)

/-! ## Bounded retention (Coach.learn, lines 117 and 156-167) -/

/-- Append an element on the right of a bounded buffer, evicting the oldest
element (index 0) when the capacity is exceeded.  This is the common step of
the two bounded collections in `Coach.learn`:
* `training_examples_history.append(...)` followed by
  `if len(...) > save_examples_from_last_n_iterations: ... .pop(0)`
  (lines 156-167), and
* a single right-append to `deque([], maxlen=max_training_examples)`
  (line 117; extending the deque by a list is element-by-element appends). -/
def boundedSnoc (cap : ℕ) (q : List α) (x : α) : List α :=
  if cap < (q ++ [x]).length then (q ++ [x]).drop 1 else q ++ [x]

/-- One iteration's history-append step in `Coach.learn` (lines 156-167). -/
def historyAppend (window : ℕ) (history : List α) (batch : α) : List α :=
  boundedSnoc window history batch

/-- One single-element append to the per-iteration
`deque([], maxlen=max_training_examples)` (line 117). -/
def dequeAppend (maxlen : ℕ) (q : List α) (x : α) : List α :=
  boundedSnoc maxlen q x

/-- `training_examples += examples` inside the episode-collection loop
(line 140): element-by-element bounded appends. -/
def dequeExtend (maxlen : ℕ) (q : List α) (xs : List α) : List α :=
  xs.foldl (dequeAppend maxlen) q

/-- Collecting all episodes of one self-play iteration into the bounded
per-iteration deque (lines 117 and 139-140). -/
def iterationExamplesCollect (maxlen : ℕ) (episodeOutputs : List (List α)) :
    List α :=
  episodeOutputs.foldl (dequeExtend maxlen) []

theorem boundedSnoc_of_le (cap : ℕ) (q : List α) (x : α)
    (h : q.length + 1 ≤ cap) : boundedSnoc cap q x = q ++ [x] := by
  simp only [boundedSnoc, List.length_append, List.length_singleton]
  rw [if_neg (by omega)]

theorem foldl_boundedSnoc_eq_drop (cap : ℕ) (bs : List α) :
    bs.foldl (boundedSnoc cap) [] = bs.drop (bs.length - cap) := by
  induction bs using List.reverseRecOn with
  | nil => simp
  | append_singleton bs b ih =>
    rw [List.foldl_append, List.foldl_cons, List.foldl_nil, ih]
    by_cases hlt : bs.length < cap
    · have h0 : bs.length - cap = 0 := by omega
      have h0' : bs.length + 1 - cap = 0 := by omega
      simp only [h0, h0', List.drop_zero, boundedSnoc, List.length_append,
        List.length_singleton]
      rw [if_neg (by omega)]
    · have hc : cap ≤ bs.length := le_of_not_lt hlt
      have hdlen : (bs.drop (bs.length - cap)).length = cap := by
        rw [List.length_drop]; omega
      simp only [boundedSnoc]
      rw [if_pos (by rw [List.length_append, hdlen]; simp)]
      rw [← List.drop_append_of_le_length
        (show bs.length - cap ≤ bs.length by omega)]
      rw [List.drop_drop]
      congr 1
      simp only [List.length_append, List.length_singleton]
      omega

theorem dequeExtend_foldl (maxlen : ℕ) (q : List α) (xs : List α) :
    dequeExtend maxlen q xs = xs.foldl (boundedSnoc maxlen) q := rfl

theorem iterationExamplesCollect_eq_foldl_join (maxlen : ℕ)
    (episodeOutputs : List (List α)) :
    iterationExamplesCollect maxlen episodeOutputs =
      episodeOutputs.flatten.foldl (boundedSnoc maxlen) [] := by
  suffices h : ∀ (outs : List (List α)) (q : List α),
      outs.foldl (dequeExtend maxlen) q = outs.flatten.foldl (boundedSnoc maxlen) q by
    exact h episodeOutputs []
  intro outs
  induction outs with
  | nil => intro q; rfl
  | cons l ls ih =>
    intro q
    rw [List.foldl_cons, List.flatten, List.foldl_append, ih]
    rfl

/-- C4: starting from an empty history, after every sequence of
batch-appends (each one `append` followed by the conditional `pop(0)` of
`Coach.learn`) the history length is at most the configured window
`save_examples_from_last_n_iterations`, the retained batches are exactly the
most recent ones in oldest-first order, and an append onto a full history
evicts exactly the oldest batch (index 0). -/
theorem history_retention_window (window : ℕ) (batches : List α)
    (hw : 0 < window) :
    (batches.foldl (historyAppend window) []).length ≤ window ∧
    batches.foldl (historyAppend window) [] =
      batches.drop (batches.length - window) ∧
    (∀ (h : List α) (b : α), h.length = window →
      historyAppend window h b = h.drop 1 ++ [b]) := by
  have hfold : batches.foldl (historyAppend window) [] =
      batches.drop (batches.length - window) :=
    foldl_boundedSnoc_eq_drop window batches
  refine ⟨?_, hfold, ?_⟩
  · rw [hfold, List.length_drop]; omega
  · intro h b hlen
    have hcond : window < (h ++ [b]).length := by
      rw [List.length_append, hlen]
      simp only [List.length_singleton]
      omega
    show boundedSnoc window h b = h.drop 1 ++ [b]
    unfold boundedSnoc
    rw [if_pos hcond]
    exact List.drop_append_of_le_length (by omega)

/-- Witness for C4: window 2, appending batches 1, 2, 3 keeps `[2, 3]`;
appending 3 onto the full history `[1, 2]` evicts batch 1. -/
theorem history_retention_window_witness :
    (([1, 2, 3] : List ℕ).foldl (historyAppend 2) []).length ≤ 2 ∧
    ([1, 2, 3] : List ℕ).foldl (historyAppend 2) [] = [2, 3] ∧
    historyAppend 2 ([1, 2] : List ℕ) 3 = [2, 3] := by
  obtain ⟨h1, h2, h3⟩ := history_retention_window 2 ([1, 2, 3] : List ℕ) (by decide)
  exact ⟨h1, h2.trans (by decide), (h3 [1, 2] 3 (by decide)).trans (by decide)⟩

/-- C10: one self-play iteration's example collection is a bounded queue of
capacity `max_training_examples`: collecting the episode outputs in order
always leaves at most `maxlen` examples, and what remains is exactly the
suffix of most recent examples — when the episodes produce more than the cap,
the earliest-collected examples of that same iteration are silently dropped
(before the deque is appended to the history at line 156). -/
theorem iteration_examples_bounded (maxlen : ℕ)
    (episodeOutputs : List (List α)) :
    (iterationExamplesCollect maxlen episodeOutputs).length ≤ maxlen ∧
    iterationExamplesCollect maxlen episodeOutputs =
      episodeOutputs.flatten.drop (episodeOutputs.flatten.length - maxlen) := by
  have h : iterationExamplesCollect maxlen episodeOutputs =
      episodeOutputs.flatten.drop (episodeOutputs.flatten.length - maxlen) := by
    rw [iterationExamplesCollect_eq_foldl_join, foldl_boundedSnoc_eq_drop]
  refine ⟨?_, h⟩
  rw [h, List.length_drop]
  omega

/-! ## Episode generation (executeEpisode, lines 15-57) -/

/-- The external game contract consumed by `executeEpisode`, abstracted as a
structure of functions (the concrete game is out of the embedded source).
Boards are `B`, players are `ℤ` (`+1`/`-1`), actions are `ℕ`, and the
action-probability vector `pi` is an abstract type `A`. -/
structure Game (B A : Type) where
  getInitBoard : B
  getCanonicalForm : B → ℤ → B
  getNextState : B → ℤ → ℕ → B × ℤ
  getGameEnded : B → ℤ → ℤ
  getSymmetries : B → A → List (B × A)

/-- The search engine consumed by `executeEpisode` (`MCTS.getActionProb`),
abstracted as a function from a canonical state and a temperature to an
action-probability vector.  A fresh instance is created inside each episode
(line 39), so it is passed per-invocation and shared with nothing else. -/
structure MCTS (B A : Type) where
  getActionProb : B → ℕ → A

/-- Line 43 of `executeEpisode`: `temp = int(move_count < temperature_threshold)`. -/
def tempOf (move_count temperature_threshold : ℕ) : ℕ :=
  if move_count < temperature_threshold then 1 else 0

/-- The `while True` loop of `executeEpisode` (lines 40-57), with an explicit
fuel bound on the number of plies (the source relies on the game contract to
terminate; `none` means the fuel ran out before a terminal state).
`choose` models `np.random.choice(len(pi), p=pi)`.  Provisional examples are
`(board, current_player, pi)` triples (line 48); the returned fully labeled
examples are `(board, pi, value)` triples with
`value = r * (-1) ** (tagged_player != current_player)` (lines 54-57). -/
def episodeLoop (g : Game B A) (mcts : MCTS B A) (choose : A → ℕ)
    (temperature_threshold : ℕ) :
    ℕ → B → ℤ → ℕ → List (B × ℤ × A) → Option (List (B × A × ℤ))
  | 0, _, _, _, _ => none
  | fuel + 1, board, current_player, move_count, episode_examples =>
    let mc := move_count + 1
    let canonical_state := g.getCanonicalForm board current_player
    let temp := tempOf mc temperature_threshold
    let pi := mcts.getActionProb canonical_state temp
    let sym := g.getSymmetries canonical_state pi
    let examples :=
      episode_examples ++ sym.map (fun bp => (bp.1, current_player, bp.2))
    let action := choose pi
    let next := g.getNextState board current_player action
    let r := g.getGameEnded next.1 next.2
    if r ≠ 0 then
      some (examples.map (fun x =>
        (x.1, x.2.2, r * (-1 : ℤ) ^ (if x.2.1 ≠ next.2 then 1 else 0))))
    else
      episodeLoop g mcts choose temperature_threshold fuel next.1 next.2 mc
        examples

/-- `executeEpisode` (lines 15-57): run the loop from the initial board with
the designated starting player, move count 0 and no recorded examples. -/
def executeEpisode (g : Game B A) (mcts : MCTS B A) (choose : A → ℕ)
    (player : ℤ) (temperature_threshold fuel : ℕ) :
    Option (List (B × A × ℤ)) :=
  episodeLoop g mcts choose temperature_threshold fuel g.getInitBoard player 0 []

/-- Ghost-instrumented version of `episodeLoop`: identical recursion, but it
returns the terminal configuration `(terminal board, terminal player, r)`
together with the provisional (unlabeled) examples instead of applying the
back-labeling map.  Used to state what `executeEpisode` labels. -/
def episodeRunAux (g : Game B A) (mcts : MCTS B A) (choose : A → ℕ)
    (temperature_threshold : ℕ) :
    ℕ → B → ℤ → ℕ → List (B × ℤ × A) →
      Option ((B × ℤ × ℤ) × List (B × ℤ × A))
  | 0, _, _, _, _ => none
  | fuel + 1, board, current_player, move_count, episode_examples =>
    let mc := move_count + 1
    let canonical_state := g.getCanonicalForm board current_player
    let temp := tempOf mc temperature_threshold
    let pi := mcts.getActionProb canonical_state temp
    let sym := g.getSymmetries canonical_state pi
    let examples :=
      episode_examples ++ sym.map (fun bp => (bp.1, current_player, bp.2))
    let action := choose pi
    let next := g.getNextState board current_player action
    let r := g.getGameEnded next.1 next.2
    if r ≠ 0 then
      some ((next.1, next.2, r), examples)
    else
      episodeRunAux g mcts choose temperature_threshold fuel next.1 next.2 mc
        examples

theorem episodeLoop_eq_runAux (g : Game B A) (mcts : MCTS B A)
    (choose : A → ℕ) (temperature_threshold : ℕ) (fuel : ℕ) :
    ∀ (board : B) (current : ℤ) (mc : ℕ) (exs : List (B × ℤ × A)),
    episodeLoop g mcts choose temperature_threshold fuel board current mc exs =
      (episodeRunAux g mcts choose temperature_threshold fuel board current mc
        exs).map
        (fun tp => tp.2.map (fun x =>
          (x.1, x.2.2,
            tp.1.2.2 * (-1 : ℤ) ^ (if x.2.1 ≠ tp.1.2.1 then 1 else 0)))) := by
  induction fuel with
  | zero => intro board current mc exs; rfl
  | succ fuel ih =>
    intro board current mc exs
    simp only [episodeLoop, episodeRunAux]
    split
    · simp
    · exact ih _ _ _ _

theorem episodeRunAux_terminal (g : Game B A) (mcts : MCTS B A)
    (choose : A → ℕ) (temperature_threshold : ℕ) (fuel : ℕ) :
    ∀ (board : B) (current : ℤ) (mc : ℕ) (exs : List (B × ℤ × A))
      (tb : B) (tp r : ℤ) (prov : List (B × ℤ × A)),
    episodeRunAux g mcts choose temperature_threshold fuel board current mc exs
      = some ((tb, tp, r), prov) →
    r = g.getGameEnded tb tp ∧ r ≠ 0 := by
  induction fuel with
  | zero => intro board current mc exs tb tp r prov h; exact absurd h (by simp [episodeRunAux])
  | succ fuel ih =>
    intro board current mc exs tb tp r prov h
    simp only [episodeRunAux] at h
    split at h
    · rename_i hr
      simp only [Option.some.injEq, Prod.mk.injEq] at h
      obtain ⟨⟨hb, hp, hr0⟩, hprov⟩ := h
      subst hb
      subst hp
      subst hr0
      exact ⟨rfl, hr⟩
    · exact ih _ _ _ _ _ _ _ _ h

/-- C2: whenever an episode terminates (the instrumented run reaches a
terminal board `tb` with mover `tp` and outcome `r = getGameEnded tb tp ≠ 0`,
`tp` being the `current_player` relative to whom the terminal outcome is
evaluated), `executeEpisode` back-labels every provisional example recorded
during the episode with `r` if the example's tagged player equals `tp`, and
with `-r` otherwise. -/
theorem episode_backlabel (g : Game B A) (mcts : MCTS B A) (choose : A → ℕ)
    (temperature_threshold fuel : ℕ) (player : ℤ)
    (tb : B) (tp r : ℤ) (prov : List (B × ℤ × A))
    (hrun : episodeRunAux g mcts choose temperature_threshold fuel
      g.getInitBoard player 0 [] = some ((tb, tp, r), prov)) :
    r = g.getGameEnded tb tp ∧ r ≠ 0 ∧
    executeEpisode g mcts choose player temperature_threshold fuel =
      some (prov.map (fun x => (x.1, x.2.2, if x.2.1 = tp then r else -r))) := by
  obtain ⟨hr, hr0⟩ := episodeRunAux_terminal g mcts choose temperature_threshold
    fuel g.getInitBoard player 0 [] tb tp r prov hrun
  refine ⟨hr, hr0, ?_⟩
  rw [executeEpisode, episodeLoop_eq_runAux, hrun]
  rw [Option.map_some']
  congr 1
  apply List.map_congr_left
  intro x _
  by_cases hx : x.2.1 = tp
  · simp [hx]
  · simp [hx, mul_neg_one]

/-- A synthetic forced 3-ply game for the C2 witness: the board is the number
of moves played so far, the game ends as soon as 3 moves are made, and the
terminal value is 1 for whichever player the outcome is queried about. -/
def toyGame : Game ℕ ℕ where
  getInitBoard := 0
  getCanonicalForm := fun b _ => b
  getNextState := fun b p _ => (b + 1, -p)
  getGameEnded := fun b _ => if 3 ≤ b then 1 else 0
  getSymmetries := fun b pi => [(b, pi)]

/-- A trivial search engine for the C2 witness. -/
def toyMCTS : MCTS ℕ ℕ := ⟨fun _ _ => 0⟩

/-- Witness for C2 on the synthetic 3-ply game: the terminal mover is `-1`
with outcome `1`, and the three recorded examples (tagged `1`, `-1`, `1`)
are labeled `-1`, `1`, `-1` respectively. -/
theorem episode_backlabel_witness :
    (1 : ℤ) = toyGame.getGameEnded 3 (-1) ∧ (1 : ℤ) ≠ 0 ∧
    executeEpisode toyGame toyMCTS (fun _ => 0) 1 15 5 =
      some [(0, 0, -1), (1, 0, 1), (2, 0, -1)] := by
  have h := episode_backlabel toyGame toyMCTS (fun _ => 0) 15 5 1 3 (-1) 1
    [(0, 1, 0), (1, -1, 0), (2, 1, 0)] (by decide)
  exact ⟨h.1, h.2.1, h.2.2.trans (by decide)⟩

/-- C8: the temperature handed to the search engine at each ply of
`executeEpisode` is `tempOf move_count temperature_threshold` (line 43,
where `move_count` has already been incremented for the current move); it is
the exploratory temperature 1 exactly when the move count is strictly below
the threshold, and the deterministic temperature 0 exactly when the move
count is at or beyond the threshold. -/
theorem temperature_schedule (move_count temperature_threshold : ℕ) :
    (tempOf move_count temperature_threshold = 1 ↔
      move_count < temperature_threshold) ∧
    (tempOf move_count temperature_threshold = 0 ↔
      temperature_threshold ≤ move_count) := by
  unfold tempOf
  split <;> rename_i hsplit <;> constructor <;> simp <;> omega

/-! ## Self-play orchestration (Coach.learn, lines 124-139) -/

/-- The starting player of episode `i` in the argument list built at
lines 127-137: `1 if i % 2 == 0 else -1`. -/
def startingPlayer (i : ℕ) : ℤ :=
  if i % 2 = 0 then 1 else -1

/-- The designated starting players of one iteration's episode invocations,
in submission order: `for i in range(1, self_play_iterations + 1)`. -/
def selfPlayStartingPlayers (self_play_iterations : ℕ) : List ℤ :=
  (List.range self_play_iterations).map (fun k => startingPlayer (k + 1))

/-- C9: within one self-play iteration the starting player alternates across
the configured episode invocations — consecutive episodes get opposite
players, and every episode's player is `+1` or `-1`.  (Each invocation also
builds its own fresh `MCTS` value inside `executeEpisode`, line 39; in the
embedding every episode is a pure function of its own packed arguments, so
no search state is shared between episodes.) -/
theorem self_play_starting_players_alternate (n k : ℕ)
    (h1 : k < (selfPlayStartingPlayers n).length)
    (h2 : k + 1 < (selfPlayStartingPlayers n).length) :
    (selfPlayStartingPlayers n).get ⟨k + 1, h2⟩ =
      -((selfPlayStartingPlayers n).get ⟨k, h1⟩) ∧
    ((selfPlayStartingPlayers n).get ⟨k, h1⟩ = 1 ∨
      (selfPlayStartingPlayers n).get ⟨k, h1⟩ = -1) := by
  simp only [selfPlayStartingPlayers, List.get_eq_getElem, List.getElem_map,
    List.getElem_range]
  by_cases hk : (k + 1) % 2 = 0
  · have hk2 : (k + 1 + 1) % 2 = 1 := by omega
    simp [startingPlayer, hk, hk2]
  · have hk' : (k + 1) % 2 = 1 := by omega
    have hk2 : (k + 1 + 1) % 2 = 0 := by omega
    simp [startingPlayer, hk', hk2]

/-- Witness for C9 with 3 episodes: the starting players are
`[-1, 1, -1]`, and episodes 1 and 2 get opposite players. -/
theorem self_play_starting_players_alternate_witness :
    (selfPlayStartingPlayers 3).get ⟨1, by decide⟩ =
      -((selfPlayStartingPlayers 3).get ⟨0, by decide⟩) ∧
    ((selfPlayStartingPlayers 3).get ⟨0, by decide⟩ = 1 ∨
      (selfPlayStartingPlayers 3).get ⟨0, by decide⟩ = -1) :=
  self_play_starting_players_alternate 3 0 (by decide) (by decide)

/-! ## Resume / checkpoint loading (Coach.__init__ and
Coach.load_training_examples, lines 66-96 and 239-253) -/

/-- What `Coach` construction does as far as control flow is concerned:
exit the process (`sys.exit()`), continue with a fresh (empty) example
history, or continue with the history loaded from the examples file. -/
inductive InitAction
  | exitProcess
  | continueFresh
  | continueLoaded
deriving DecidableEq

/-- The coach state relevant to resume: the retained example history and the
`skip_first_self_play` flag (line 87). -/
structure CoachState (IB : Type) where
  training_examples_history : List IB
  skip_first_self_play : Bool
deriving DecidableEq

/-- `Coach.load_training_examples` (lines 239-253): if the companion
`.examples` file is missing, prompt the operator and exit unless the answer
is exactly `"y"`; otherwise unpickle the history (`fileContents`) and set
`skip_first_self_play = True`. -/
def load_training_examples (examplesFileExists : Bool) (fileContents : List IB)
    (userInput : String) (s : CoachState IB) : InitAction × CoachState IB :=
  if !examplesFileExists then
    if userInput ≠ "y" then
      (InitAction.exitProcess, s)
    else
      (InitAction.continueFresh, s)
  else
    (InitAction.continueLoaded,
      { training_examples_history := fileContents,
        skip_first_self_play := true })

/-- `Coach.__init__` (lines 86-96): start with an empty history and
`skip_first_self_play = False`; if the best-model checkpoint is loadable
(`can_load_model`), load it and call `load_training_examples`, else continue
fresh with self-play. -/
def coachInit (can_load_model examplesFileExists : Bool)
    (fileContents : List IB) (userInput : String) :
    InitAction × CoachState IB :=
  let s0 : CoachState IB :=
    { training_examples_history := [], skip_first_self_play := false }
  if can_load_model then
    load_training_examples examplesFileExists fileContents userInput s0
  else
    (InitAction.continueFresh, s0)

/-- C7: on resume with a loadable model snapshot but a missing companion
examples file, the process continues (building examples from scratch) exactly
when the operator answers `"y"`, exits on every other input, and never
silently continues with the loaded-history path. -/
theorem resume_missing_examples_requires_opt_in (IB : Type)
    (fileContents : List IB) (userInput : String) :
    ((coachInit true false fileContents userInput).1 = InitAction.exitProcess
      ↔ userInput ≠ "y") ∧
    ((coachInit true false fileContents userInput).1 = InitAction.continueFresh
      ↔ userInput = "y") ∧
    (coachInit true false fileContents userInput).1 ≠
      InitAction.continueLoaded := by
  unfold coachInit load_training_examples
  by_cases h : userInput = "y" <;> simp [h]

/-- C5 (code bug): after a successful resume — a loadable snapshot whose
companion examples file exists — `skip_first_self_play` is set to true by
`load_training_examples`, but `Coach.learn` (lines 115-156) runs the
self-play block unconditionally in every iteration: no conditional in
`learn` ever consults the flag, so the most recent self-play batch is
regenerated rather than skipped.  `learnSelfPlayRuns` transcribes this
absence of a guard. -/
def learnSelfPlayRuns (s : CoachState IB) (iteration : ℕ) : Bool :=
  true

/-- C5: in the resumed state the flag is set, yet iteration 1 of `learn`
still runs self-play — the code never skips regenerating the most recent
self-play batch. -/
theorem resume_does_not_skip_first_self_play :
    (coachInit true true [[1]] "y" : InitAction × CoachState (List ℕ)).2.skip_first_self_play
        = true ∧
    learnSelfPlayRuns
        (coachInit true true [[1]] "y" : InitAction × CoachState (List ℕ)).2 1
      = true := by
  constructor <;> rfl

/-! ## Retrain / evaluate phase (Coach.learn, lines 178-207) -/

/-- The estimator-instance state across the retrain/evaluate phase: the
parameters held by the `self.nnet` instance (the incumbent), by the
`self.pnet` instance, and by the temp checkpoint file. -/
structure RetrainState (P : Type) where
  nnet : P
  pnet : P
  temp_file : P
deriving DecidableEq

/-- Lines 178-184 of `Coach.learn`: `self.nnet.save_checkpoint(temp)`,
`self.pnet.load_checkpoint(temp)`, then `self.nnet.train(trainExamples)` —
the training call updates the `self.nnet` instance itself.  `train` abstracts
the external gradient-descent step on the parameters. -/
def retrainStep (train : P → P) (nnet0 : P) : RetrainState P :=
  let temp_file := nnet0
  let pnet := temp_file
  let nnet := train nnet0
  { nnet := nnet, pnet := pnet, temp_file := temp_file }

/-- Lines 178-207 of `Coach.learn`: the retrain step followed by the arena
(`playGames pnetParams nnetParams` returns `(pwins, nwins, draws)`) and the
accept/reject decision; on rejection `self.nnet.load_checkpoint(temp)`
restores the incumbent's parameters from the pre-retrain checkpoint. -/
def retrainAndEvaluate (train : P → P) (playGames : P → P → ℕ × ℕ × ℕ)
    (threshold : ℚ) (nnet0 : P) : RetrainState P :=
  let s := retrainStep train nnet0
  let res := playGames s.pnet s.nnet
  if arenaRejects res.1 res.2.1 threshold then
    { s with nnet := s.temp_file }
  else
    s

/-- C6 counterexample: with parameters `ℕ`, a training step `(+1)` and
incumbent parameters `0`, the retrain phase leaves the incumbent instance
(`nnet`) holding the trained parameters `1 ≠ 0`: the challenger is produced
by training the incumbent estimator instance in place, not a separate
instance, refuting the claim as stated. -/
theorem retrain_mutates_incumbent_in_place :
    ¬ (retrainStep (fun p : ℕ => p + 1) 0).nnet = 0 := by
  decide

/-- C6 as amended: retraining checkpoints the incumbent's parameters
(`temp_file`), loads them into the separate `pnet` instance, and trains the
incumbent instance in place starting from its own checkpointed parameters
(a fine-tune); after a rejected iteration the incumbent's parameters are
restored from the pre-retrain checkpoint, and after an accepted one they are
the trained (challenger) parameters. -/
theorem retrain_in_place_with_restore_on_reject (P : Type) (train : P → P)
    (playGames : P → P → ℕ × ℕ × ℕ) (threshold : ℚ) (nnet0 : P) :
    (retrainStep train nnet0).pnet = nnet0 ∧
    (retrainStep train nnet0).temp_file = nnet0 ∧
    (retrainStep train nnet0).nnet = train nnet0 ∧
    (arenaRejects (playGames nnet0 (train nnet0)).1
        (playGames nnet0 (train nnet0)).2.1 threshold = true →
      (retrainAndEvaluate train playGames threshold nnet0).nnet = nnet0) ∧
    (arenaRejects (playGames nnet0 (train nnet0)).1
        (playGames nnet0 (train nnet0)).2.1 threshold = false →
      (retrainAndEvaluate train playGames threshold nnet0).nnet
        = train nnet0) := by
  refine ⟨rfl, rfl, rfl, ?_, ?_⟩ <;>
    intro h <;>
    simp only [retrainAndEvaluate, retrainStep, h] <;>
    rfl

/-- Witness for C6 as amended: parameters `ℕ`, training step `(+1)`,
incumbent `0`, an arena the challenger loses 0-5 (so the decision is a
rejection at threshold 3/5): the separate `pnet` instance got the old
parameters, the incumbent instance was trained in place to `1`, and after
the rejection the incumbent's parameters are back to the pre-retrain
checkpoint `0`. -/
theorem retrain_in_place_with_restore_on_reject_witness :
    (retrainStep (fun p : ℕ => p + 1) 0).pnet = 0 ∧
    (retrainStep (fun p : ℕ => p + 1) 0).nnet = 1 ∧
    (retrainAndEvaluate (fun p : ℕ => p + 1) (fun _ _ => (5, 0, 0))
        (3 / 5 : ℚ) 0).nnet = 0 := by
  obtain ⟨h1, h2, h3, h4, h5⟩ := retrain_in_place_with_restore_on_reject ℕ
    (fun p => p + 1) (fun _ _ => (5, 0, 0)) (3 / 5 : ℚ) 0
  exact ⟨h1, h3, h4 (by norm_num [arenaRejects])⟩
